import Mathlib

/-!
Shallow embedding of the bcap x402 payment-gateway admission pipeline:
the persistent balance ledger (RocksDB and DynamoDB backends), the
signature replay cache, the signature verifier, the client transport's
header construction, and the relay request pipeline.

Balances are `f64` USDC amounts in the source.  Two models of the
balance arithmetic are developed: an exact-rational one (`add_balance`,
`deduct_balance`), used for the claims whose content is control flow,
comparisons and identities that are exact in `f64` as well
(`x - x = 0`, `0 + a = a`, hard-coded constants); and a rounding one
(`f64_add`, `f64_sub` built on `roundF64`, IEEE-754 binary64
round-to-nearest-even at 53-bit precision), used where the rounding of
`f64` addition is load-bearing — the sequence-accounting invariant.
Byte strings are modelled as `String`; keccak256 and ECDSA are
abstracted into a signature-scheme parameter.
-/

namespace Gateway

/-- Models Rust `char::to_lowercase` as used on ASCII hex addresses
(the source lowercases every ledger key): Lean core `Char.toLower`. -/
def lowerChar (c : Char) : Char := Char.toLower c

/-- Models Rust `str::to_lowercase`: lowercase every character. -/
def lowercase (s : String) : String := ⟨s.data.map lowerChar⟩

/-- `UserData` from `database/mod.rs`: per-address balance (USDC) and
unix-seconds timestamp of the last successful debit. -/
structure UserData where
  balance : ℚ
  latest_timestamp : ℕ
deriving DecidableEq, Repr

/-- `UserData::new`. -/
def UserData.new (balance : ℚ) (timestamp : ℕ) : UserData :=
  ⟨balance, timestamp⟩

/-- `DatabaseError` from `database/mod.rs` (message payloads kept as strings;
the insufficient-balance payload keeps its `has`/`need` amounts). -/
inductive DatabaseError where
  | rocksDB (msg : String)
  | dynamoDB (msg : String)
  | serialization (msg : String)
  | insufficientBalance (has : ℚ) (need : ℚ)
  | attributeNotFound (name : String)
  | parseError (msg : String)
deriving DecidableEq, Repr

/-- The RocksDB key-value store: lowercased address ↦ stored `UserData`. -/
def Store : Type := String → Option UserData

/-- A store in which no address has ever been written. -/
def emptyStore : Store := fun _ => none

/-- `RocksDbDatabase::get_user`: lowercase the key, read the store. -/
def get_user (store : Store) (address : String) : Option UserData :=
  store (lowercase address)

/-- `RocksDbDatabase::update_user`: lowercase the key, write the record. -/
def update_user (store : Store) (address : String) (data : UserData) : Store :=
  fun k => if k = lowercase address then some data else store k

/-- `RocksDbDatabase::add_balance`: read (missing record treated as
`UserData::new(0.0, 0)`), add `amount`, write back, return new balance. -/
def add_balance (store : Store) (address : String) (amount : ℚ) :
    Store × ℚ :=
  let key := lowercase address
  let user_data := (get_user store key).getD (UserData.new 0 0)
  let user_data' := { user_data with balance := user_data.balance + amount }
  (update_user store key user_data', user_data'.balance)

/-- `RocksDbDatabase::deduct_balance`: read (missing record treated as
`UserData::new(0.0, 0)`); if `balance < amount` fail with
`InsufficientBalance {has, need}` leaving the store untouched; otherwise
subtract, set `latest_timestamp` to the given timestamp, write back and
return the remaining balance. -/
def deduct_balance (store : Store) (address : String) (amount : ℚ)
    (timestamp : ℕ) : Store × Except DatabaseError ℚ :=
  let key := lowercase address
  let user_data := (get_user store key).getD (UserData.new 0 0)
  if user_data.balance < amount then
    (store, .error (.insufficientBalance user_data.balance amount))
  else
    let user_data' : UserData := ⟨user_data.balance - amount, timestamp⟩
    (update_user store key user_data', .ok user_data'.balance)

/-- The balance the ledger holds for an address (0 when absent), which is
how both `add_balance` and `deduct_balance` read the current balance. -/
def userBalance (store : Store) (address : String) : ℚ :=
  ((get_user store address).getD (UserData.new 0 0)).balance

/-- The DynamoDB table from `database/dynamodb.rs`: one item per
lowercased address with `balance` and `latest_timestamp` attributes. -/
def DynamoTable : Type := String → Option UserData

/-- `DynamoDbDatabase::deduct_balance`: conditional update guarded by
`attribute_exists(balance) AND balance >= :amount`; on success
subtracts and sets `latest_timestamp = :ts`; a conditional-check
failure is classified as `InsufficientBalance { has: 0.0, need: amount }`. -/
def dynamo_deduct_balance (table : DynamoTable) (address : String)
    (amount : ℚ) (timestamp : ℕ) : DynamoTable × Except DatabaseError ℚ :=
  let key := lowercase address
  match table key with
  | some item =>
    if amount ≤ item.balance then
      let item' : UserData := ⟨item.balance - amount, timestamp⟩
      ((fun k => if k = key then some item' else table k), .ok item'.balance)
    else
      (table, .error (.insufficientBalance 0 amount))
  | none => (table, .error (.insufficientBalance 0 amount))

/-- The replay cache contents from `signature_cache.rs`: each entry maps a
signature string to the instant it was first seen (monotone seconds). -/
abbrev SignatureCache := List (String × ℕ)

namespace SignatureCache

/-- The cache TTL: 2 minutes (2× the 60 s timestamp window). -/
def ttl : ℕ := 120

/-- `SignatureCache::cleanup`: retain entries with
`now.duration_since(first_seen) < ttl` (durations saturate at zero). -/
def cleanup (c : SignatureCache) (now : ℕ) : SignatureCache :=
  c.filter (fun e => now - e.2 < ttl)

/-- `SignatureCache::is_replay`: clean up expired entries first, then
report whether the signature is present.  Returns the cleaned cache
together with the answer. -/
def is_replay (c : SignatureCache) (now : ℕ) (signature : String) :
    SignatureCache × Bool :=
  let c' := cleanup c now
  (c', c'.any (fun e => e.1 == signature))

/-- `SignatureCache::add`: insert the signature with `first_seen = now`
(a map insert replaces any previous entry for the same signature). -/
def add (c : SignatureCache) (now : ℕ) (signature : String) :
    SignatureCache :=
  (signature, now) :: c.filter (fun e => e.1 ≠ signature)

end SignatureCache

/-- An operation performed on the replay cache at a given instant. -/
inductive CacheOp where
  | addSig (signature : String) (t : ℕ)
  | probe (signature : String) (t : ℕ)
deriving DecidableEq, Repr

/-- The instant at which a cache operation runs. -/
def CacheOp.time : CacheOp → ℕ
  | .addSig _ t => t
  | .probe _ t => t

/-- The signature a cache operation touches. -/
def CacheOp.sig : CacheOp → String
  | .addSig s _ => s
  | .probe s _ => s

/-- Run a sequence of cache operations (probes discard their boolean
answer but perform their lazy eviction). -/
def runCacheOps (c : SignatureCache) : List CacheOp → SignatureCache
  | [] => c
  | .addSig s t :: rest => runCacheOps (SignatureCache.add c t s) rest
  | .probe s t :: rest => runCacheOps (SignatureCache.is_replay c t s).1 rest

/-- Abstraction of the cryptographic primitives used by
`verify_signature` (handlers.rs) and the client transport
(payment-transport/src/lib.rs): keccak256, ECDSA sign / recover,
address and signature rendering and parsing. -/
structure SigScheme where
  Key : Type
  Addr : Type
  Sig : Type
  Hash : Type
  /-- `signer.address()` -/
  pubkey : Key → Addr
  /-- `signer.sign_hash(..)` -/
  signHash : Key → Hash → Sig
  /-- `Signature::recover_address_from_prehash` (None on failure) -/
  recoverPrehash : Sig → Hash → Option Addr
  /-- `alloy::primitives::keccak256` of a byte string -/
  keccak256 : String → Hash
  /-- `hex::encode` of a 32-byte hash -/
  hexEncode : Hash → String
  /-- `Display` rendering of an address (EIP-55 checksummed) -/
  addrToString : Addr → String
  /-- `Display` rendering of a 65-byte signature -/
  sigToString : Sig → String
  /-- `str::parse::<Address>` (None on failure) -/
  parseAddress : String → Option Addr
  /-- `Signature::from_str` (None on failure) -/
  parseSignature : String → Option Sig
  /-- address equality (`==` on `Address`) -/
  addrEq : Addr → Addr → Bool

/-- `TIMESTAMP_WINDOW_SECS` from handlers.rs. -/
def TIMESTAMP_WINDOW_SECS : ℕ := 60

/-- The failure modes of `verify_signature`, in source order. -/
inductive VerifyError where
  | timestampDrift (sec : ℕ)
  | badSignatureFormat
  | recoveryFailed
  | badAddressFormat
  | addressMismatch
deriving DecidableEq, Repr

/-- `verify_signature` from handlers.rs: reject when
`now.abs_diff(timestamp) > TIMESTAMP_WINDOW_SECS`; rebuild the message
`address ++ timestamp ++ hex(keccak256(body))` from the header strings,
hash it, parse the signature, recover the signer from the prehash,
parse the claimed address, and require recovered == claimed. -/
def verify_signature (S : SigScheme) (now : ℕ) (address : String)
    (signature : String) (timestamp : ℕ) (body : String) :
    Except VerifyError Unit :=
  if TIMESTAMP_WINDOW_SECS < Nat.dist now timestamp then
    .error (.timestampDrift (Nat.dist now timestamp))
  else
    let body_hash := S.keccak256 body
    let message := address ++ toString timestamp ++ S.hexEncode body_hash
    let message_hash := S.keccak256 message
    match S.parseSignature signature with
    | none => .error .badSignatureFormat
    | some sig =>
      match S.recoverPrehash sig message_hash with
      | none => .error .recoveryFailed
      | some recovered =>
        match S.parseAddress address with
        | none => .error .badAddressFormat
        | some claimed =>
          if S.addrEq recovered claimed then .ok () else
            .error .addressMismatch

/-- The auth headers built by `PaymentTransport::do_reqwest`
(payment-transport/src/lib.rs): `X-Auth-Address` is the signer's
address rendered to a string, `X-Auth-Signature` signs
`keccak256(address ++ timestamp ++ hex(keccak256(body)))`, and
`X-Auth-Timestamp` is the capture time in unix seconds. -/
def transport_headers (S : SigScheme) (key : S.Key) (timestamp : ℕ)
    (body : String) : String × String × ℕ :=
  let address := S.pubkey key
  let body_hash := S.keccak256 body
  let message := S.addrToString address ++ toString timestamp
    ++ S.hexEncode body_hash
  let message_hash := S.keccak256 message
  let signature := S.signHash key message_hash
  (S.addrToString address, S.sigToString signature, timestamp)

/-- A degenerate signature scheme over unit types; it satisfies the
ECDSA recovery and rendering round-trip laws definitionally. -/
def trivialScheme : SigScheme where
  Key := Unit
  Addr := Unit
  Sig := Unit
  Hash := String
  pubkey := fun _ => ()
  signHash := fun _ _ => ()
  recoverPrehash := fun _ _ => some ()
  keccak256 := fun s => s
  hexEncode := fun h => h
  addrToString := fun _ => "0xaaaa"
  sigToString := fun _ => "0xsig"
  parseAddress := fun _ => some ()
  parseSignature := fun _ => some ()
  addrEq := fun _ _ => true

/-- JSON values, as much as the deposit flow reads of the serialized
payment payload: objects and strings. -/
inductive Json where
  | null
  | str (s : String)
  | obj (fields : List (String × Json))

/-- Field lookup in a JSON object's field list. -/
def findField : List (String × Json) → String → Option Json
  | [], _ => none
  | (k, v) :: rest, key => if k = key then some v else findField rest key

/-- `serde_json::Value::get`: field of an object, else `None`. -/
def Json.get : Json → String → Option Json
  | .obj fields, key => findField fields key
  | _, _ => none

/-- `serde_json::Value::as_str`. -/
def Json.asStr : Json → Option String
  | .str s => some s
  | _ => none

/-- `str::parse::<u64>` on a decimal string: at least one character,
digits only, value below 2^64. -/
def parse_u64 (s : String) : Option ℕ :=
  if s.data ≠ [] ∧ s.data.all Char.isDigit then
    let n := s.data.foldl (fun n c => n * 10 + (c.toNat - 48)) 0
    if n < 2 ^ 64 then some n else none
  else none

/-- The payer address read from the verified payment payload:
`payment_json["payload"]["authorization"]["from"]` as a string,
defaulting to the empty string (`unwrap_or_default`). -/
def extract_from_address (payment_json : Json) : String :=
  ((((payment_json.get "payload").bind (fun p => p.get "authorization")).bind
    (fun auth => auth.get "from")).bind Json.asStr).getD ""

/-- The raw value read from the verified payment payload:
`payment_json["payload"]["authorization"]["value"]` as a string,
defaulting to `"0"` (`unwrap_or_else`). -/
def extract_value_raw (payment_json : Json) : String :=
  ((((payment_json.get "payload").bind (fun p => p.get "authorization")).bind
    (fun auth => auth.get "value")).bind Json.asStr).getD "0"

/-- `amount_raw.parse::<u64>().map(|v| v as f64 / 1_000_000.0).unwrap_or(0.0)`. -/
def amount_usdc_of (raw : String) : ℚ :=
  match parse_u64 raw with
  | some v => (v : ℚ) / 1000000
  | none => 0

/-- HTTP responses the relay pipeline can produce, abstracted to their
admission-relevant identity. -/
inductive RelayResponse where
  /-- 402 with the payment-requirements JSON body (`request_payment`) -/
  | paymentRequired
  /-- 401 "Replay detected: signature already used" -/
  | replayDetected
  /-- 401 "Authentication failed: {reason}" -/
  | authFailed (reason : String)
  /-- 400 "Invalid payment format" -/
  | badRequest
  /-- a paygate (extract / verify / settle) error response, forwarded
  verbatim via `err.into_response()` -/
  | facilitatorError (msg : String)
  /-- the upstream node's response to the forwarded body (`relay_to_node`) -/
  | upstreamResponse (body : String)
deriving DecidableEq, Repr

/-- The externally-determined outcomes of the paygate calls inside
`handle_payment_with_paygate`: payload extraction, facilitator verify,
serialization of the verified payload to JSON, facilitator settle. -/
structure DepositEnv where
  extract_payment : Except RelayResponse Unit
  verify_payment : Except RelayResponse Unit
  payment_json : Except Unit Json
  settle_payment : Except RelayResponse Unit

/-- `handle_payment_with_paygate` from handlers.rs: propagate extract /
verify failures; 400 when the verified payload does not serialize;
400 when the extracted payer address is empty; a missing value falls
back to `"0"` and parses to amount 0; settle, then credit the payer,
then debit `price_per_request` ignoring its error, then forward the
body upstream.  (The ledger-credit I/O-failure branch, a 500, cannot
occur in this pure store model.) -/
def handle_payment_with_paygate (env : DepositEnv) (store : Store)
    (price : ℚ) (now : ℕ) (body : String) : RelayResponse × Store :=
  match env.extract_payment with
  | .error err => (err, store)
  | .ok _ =>
  match env.verify_payment with
  | .error err => (err, store)
  | .ok _ =>
  match env.payment_json with
  | .error _ => (.badRequest, store)
  | .ok payment_json =>
    let user_address := extract_from_address payment_json
    if user_address = "" then (.badRequest, store)
    else
      let amount_usdc := amount_usdc_of (extract_value_raw payment_json)
      match env.settle_payment with
      | .error err => (err, store)
      | .ok _ =>
        let credited := add_balance store user_address amount_usdc
        let debited := deduct_balance credited.1 user_address price now
        (.upstreamResponse body, debited.1)

/-- The request headers the pipeline inspects. -/
structure Headers where
  xPayment : Option String
  xAuthAddress : Option String
  xAuthSignature : Option String
  xAuthTimestamp : Option String

/-- `extract_auth_headers`: all of `X-Auth-Address`, `X-Auth-Signature`
and a `u64`-parsable `X-Auth-Timestamp` must be present. -/
def extract_auth_headers (h : Headers) : Option (String × String × ℕ) :=
  match h.xAuthAddress, h.xAuthSignature, h.xAuthTimestamp with
  | some address, some signature, some ts_raw =>
    (parse_u64 ts_raw).map (fun ts => (address, signature, ts))
  | _, _, _ => none

/-- `has_payment_header`. -/
def has_payment_header (h : Headers) : Bool :=
  h.xPayment.isSome

/-- `relay` from handlers.rs, the admission pipeline: dispatch on
`X-Payment`; otherwise extract auth headers (402 on failure), probe the
replay cache (401 on replay), verify the signature (401 on failure,
with the verifier abstracted into the `verify` parameter), debit the
ledger (402 on any error), only then remember the signature and forward
the body upstream.  Result: response, final cache, final store. -/
def relay (env : DepositEnv)
    (verify : String → String → ℕ → String → Except String Unit)
    (h : Headers) (body : String) (now : ℕ) (cache : SignatureCache)
    (store : Store) (price : ℚ) :
    RelayResponse × SignatureCache × Store :=
  if has_payment_header h then
    let paid := handle_payment_with_paygate env store price now body
    (paid.1, cache, paid.2)
  else
    match extract_auth_headers h with
    | none => (.paymentRequired, cache, store)
    | some (address, signature, timestamp) =>
      let probe := SignatureCache.is_replay cache now signature
      if probe.2 then (.replayDetected, probe.1, store)
      else
        match verify address signature timestamp body with
        | .error e => (.authFailed e, probe.1, store)
        | .ok _ =>
          match deduct_balance store address price timestamp with
          | (store', .ok _) =>
            (.upstreamResponse body,
             SignatureCache.add probe.1 now signature, store')
          | (store', .error _) => (.paymentRequired, probe.1, store')

/-- A ledger operation on a fixed address: a deposit credit or a
per-request debit. -/
inductive LedgerOp where
  | credit (amount : ℚ)
  | debit (amount : ℚ) (timestamp : ℕ)

/-- The amount an operation moves. -/
def LedgerOp.amount : LedgerOp → ℚ
  | .credit a => a
  | .debit a _ => a

/-- Apply one ledger operation to the store (a failed debit leaves the
store unchanged, which is what `deduct_balance` returns). -/
def applyLedgerOp (store : Store) (address : String) : LedgerOp → Store
  | .credit a => (add_balance store address a).1
  | .debit a t => (deduct_balance store address a t).1

/-- Run a sequence of ledger operations left to right. -/
def runLedgerOps (store : Store) (address : String) :
    List LedgerOp → Store
  | [] => store
  | op :: rest => runLedgerOps (applyLedgerOp store address op) address rest

/-- Sum of all credited amounts in a sequence. -/
def sumCredits : List LedgerOp → ℚ
  | [] => 0
  | .credit a :: rest => a + sumCredits rest
  | .debit _ _ :: rest => sumCredits rest

/-- Sum of the amounts of the debits that succeed when the sequence is
run from the given store. -/
def sumSuccessfulDebits (store : Store) (address : String) :
    List LedgerOp → ℚ
  | [] => 0
  | .credit a :: rest =>
    sumSuccessfulDebits (add_balance store address a).1 address rest
  | .debit a t :: rest =>
    match deduct_balance store address a t with
    | (store', .ok _) => a + sumSuccessfulDebits store' address rest
    | (store', .error _) => sumSuccessfulDebits store' address rest

/-- Round the non-negative rational `n / d` (with `d > 0`) to the
nearest integer, ties to even — the IEEE-754 default rounding of a
scaled significand. -/
def rndInt (n d : ℕ) : ℕ :=
  let fl := n / d
  let r := n % d
  if 2 * r < d then fl
  else if d < 2 * r then fl + 1
  else if fl % 2 = 0 then fl else fl + 1

/-- `⌊log₂ (n / d)⌋` for positive naturals `n`, `d`. -/
def floorLog2 (n d : ℕ) : ℤ :=
  let e0 : ℤ := (Nat.log2 n : ℤ) - (Nat.log2 d : ℤ)
  if 0 ≤ e0 then (if n < d * 2 ^ e0.toNat then e0 - 1 else e0)
  else (if n * 2 ^ (-e0).toNat < d then e0 - 1 else e0)

/-- IEEE-754 binary64 rounding of an exact rational: round to nearest
with 53 bits of significand, ties to even — the rounding every Rust
`f64` arithmetic result undergoes.  The exponent range is unbounded
(no overflow, infinities or subnormals), which agrees with binary64 on
the whole normal range the gateway's balances live in. -/
def roundF64 (x : ℚ) : ℚ :=
  if x = 0 then 0
  else
    let n := x.num.natAbs
    let d := x.den
    let e : ℤ := floorLog2 n d - 52
    let m : ℕ := if 0 ≤ e then rndInt n (d * 2 ^ e.toNat)
      else rndInt (n * 2 ^ (-e).toNat) d
    let mag : ℚ := if 0 ≤ e then (m : ℚ) * 2 ^ e.toNat
      else (m : ℚ) / 2 ^ (-e).toNat
    if x < 0 then -mag else mag

/-- Rust `f64` addition: exact sum, then binary64 rounding. -/
def f64_add (a b : ℚ) : ℚ := roundF64 (a + b)

/-- Rust `f64` subtraction: exact difference, then binary64 rounding. -/
def f64_sub (a b : ℚ) : ℚ := roundF64 (a - b)

/-- `RocksDbDatabase::add_balance` with the source's `f64` balance
arithmetic: `user_data.balance += amount` rounds to binary64. -/
def add_balance_f64 (store : Store) (address : String) (amount : ℚ) :
    Store × ℚ :=
  let key := lowercase address
  let user_data := (get_user store key).getD (UserData.new 0 0)
  let user_data' :=
    { user_data with balance := f64_add user_data.balance amount }
  (update_user store key user_data', user_data'.balance)

/-- `RocksDbDatabase::deduct_balance` with the source's `f64` balance
arithmetic: the comparison is exact (as it is on `f64` values), the
subtraction rounds to binary64. -/
def deduct_balance_f64 (store : Store) (address : String) (amount : ℚ)
    (timestamp : ℕ) : Store × Except DatabaseError ℚ :=
  let key := lowercase address
  let user_data := (get_user store key).getD (UserData.new 0 0)
  if user_data.balance < amount then
    (store, .error (.insufficientBalance user_data.balance amount))
  else
    let user_data' : UserData := ⟨f64_sub user_data.balance amount, timestamp⟩
    (update_user store key user_data', .ok user_data'.balance)

/-- Apply one ledger operation with the source's `f64` arithmetic. -/
def applyLedgerOpF64 (store : Store) (address : String) : LedgerOp → Store
  | .credit a => (add_balance_f64 store address a).1
  | .debit a t => (deduct_balance_f64 store address a t).1

/-- Run a sequence of ledger operations with `f64` arithmetic. -/
def runLedgerOpsF64 (store : Store) (address : String) :
    List LedgerOp → Store
  | [] => store
  | op :: rest =>
    runLedgerOpsF64 (applyLedgerOpF64 store address op) address rest

/-- Sum of the amounts of the debits that succeed when the sequence is
run with `f64` arithmetic from the given store. -/
def sumSuccessfulDebitsF64 (store : Store) (address : String) :
    List LedgerOp → ℚ
  | [] => 0
  | .credit a :: rest =>
    sumSuccessfulDebitsF64 (add_balance_f64 store address a).1 address rest
  | .debit a t :: rest =>
    match deduct_balance_f64 store address a t with
    | (store', .ok _) => a + sumSuccessfulDebitsF64 store' address rest
    | (store', .error _) => sumSuccessfulDebitsF64 store' address rest

theorem lowerChar_idem (c : Char) : lowerChar (lowerChar c) = lowerChar c := by
  show Char.toLower (Char.toLower c) = Char.toLower c
  unfold Char.toLower
  by_cases h : c.toNat ≥ 65 ∧ c.toNat ≤ 90
  · rw [if_pos h]
    have hval : (65 : ℕ) + 32 ≤ c.toNat + 32 ∧ c.toNat + 32 ≤ 90 + 32 :=
      ⟨Nat.add_le_add_right h.1 32, Nat.add_le_add_right h.2 32⟩
    have hvalid : Nat.isValidChar (c.toNat + 32) := by
      left
      omega
    have htoNat : (Char.ofNat (c.toNat + 32)).toNat = c.toNat + 32 := by
      rw [Char.ofNat, dif_pos hvalid]
      rfl
    rw [if_neg]
    rw [htoNat]
    omega
  · rw [if_neg h, if_neg h]

theorem lowercase_idem (s : String) :
    lowercase (lowercase s) = lowercase s := by
  unfold lowercase
  simp only [String.data]
  rw [List.map_map]
  congr 1
  exact List.map_congr_left fun c _ => lowerChar_idem c

theorem get_user_update_self (store : Store) (address : String)
    (data : UserData) :
    get_user (update_user store (lowercase address) data) address = some data := by
  unfold get_user update_user
  rw [lowercase_idem]
  simp

theorem get_user_lowercase (store : Store) (address : String) :
    get_user store (lowercase address) = get_user store address := by
  unfold get_user
  rw [lowercase_idem]

theorem deduct_balance_eq (store : Store) (address : String) (amount : ℚ)
    (timestamp : ℕ) :
    deduct_balance store address amount timestamp =
      if userBalance store address < amount then
        (store, .error (.insufficientBalance (userBalance store address) amount))
      else
        (update_user store (lowercase address)
          ⟨userBalance store address - amount, timestamp⟩,
         .ok (userBalance store address - amount)) := by
  unfold deduct_balance userBalance
  dsimp only
  rw [get_user_lowercase]

theorem add_balance_eq (store : Store) (address : String) (amount : ℚ) :
    add_balance store address amount =
      (update_user store (lowercase address)
        ⟨userBalance store address + amount,
         ((get_user store address).getD (UserData.new 0 0)).latest_timestamp⟩,
       userBalance store address + amount) := by
  unfold add_balance userBalance
  dsimp only
  rw [get_user_lowercase]

theorem userBalance_update_self (store : Store) (address : String)
    (data : UserData) :
    userBalance (update_user store (lowercase address) data) address =
      data.balance := by
  unfold userBalance
  rw [get_user_update_self]
  rfl

/-- C1: `deduct_balance` fails with `InsufficientBalance {has, need}` when
the current balance is strictly below `amount`, leaving the stored record
unchanged; otherwise it subtracts `amount` from the balance, sets
`latest_timestamp` to the given timestamp and returns the remaining
balance; in particular a debit of exactly the current balance succeeds
with remaining balance 0. -/
theorem deduct_balance_correct (store : Store) (address : String)
    (amount : ℚ) (timestamp : ℕ) :
    (userBalance store address < amount →
      deduct_balance store address amount timestamp =
        (store,
         .error (.insufficientBalance (userBalance store address) amount))) ∧
    (amount ≤ userBalance store address →
      (deduct_balance store address amount timestamp).2 =
          .ok (userBalance store address - amount) ∧
      get_user (deduct_balance store address amount timestamp).1 address =
        some ⟨userBalance store address - amount, timestamp⟩) ∧
    (amount = userBalance store address →
      (deduct_balance store address amount timestamp).2 = .ok 0) := by
  refine ⟨fun hlt => ?_, fun hle => ?_, fun heq => ?_⟩
  · rw [deduct_balance_eq, if_pos hlt]
  · rw [deduct_balance_eq, if_neg (not_lt.mpr hle)]
    exact ⟨rfl, get_user_update_self _ _ _⟩
  · rw [deduct_balance_eq, if_neg (not_lt.mpr (le_of_eq heq))]
    simp [heq]

/-- Witness for C1 at a concrete ledger: with a stored balance of 5, a
debit of 7 fails with `InsufficientBalance {has := 5, need := 7}` and
leaves the store unchanged, while a debit of exactly 5 returns
remaining balance 0. -/
theorem deduct_balance_correct_witness :
    (deduct_balance (update_user emptyStore "a" ⟨5, 0⟩) "a" 7 9 =
      (update_user emptyStore "a" ⟨5, 0⟩,
       .error (.insufficientBalance 5 7))) ∧
    (deduct_balance (update_user emptyStore "a" ⟨5, 0⟩) "a" 5 3).2 =
      .ok 0 := by
  constructor
  · exact (deduct_balance_correct (update_user emptyStore "a" ⟨5, 0⟩)
      "a" 7 9).1 (by norm_num [show userBalance (update_user emptyStore "a" ⟨5, 0⟩) "a" = 5 from rfl])
  · exact (deduct_balance_correct (update_user emptyStore "a" ⟨5, 0⟩)
      "a" 5 3).2.2 rfl

/-- C9: an address never written before reads back as absent, and a first
credit creates the record treating the prior balance as 0 and the prior
timestamp as 0, so the new balance and stored record equal the credited
amount.  (In this pure model of the store the credit path is total: the
only failure mode of `add_balance` in the source is storage I/O.) -/
theorem fresh_address_behavior (address : String) (amount : ℚ) :
    get_user emptyStore address = none ∧
    (add_balance emptyStore address amount).2 = amount ∧
    get_user (add_balance emptyStore address amount).1 address =
      some (UserData.new amount 0) := by
  refine ⟨rfl, zero_add amount, ?_⟩
  show get_user (update_user emptyStore (lowercase address) ⟨0 + amount, 0⟩)
      address = some (UserData.new amount 0)
  rw [get_user_update_self]
  simp [UserData.new]

/-- C10: whenever the DynamoDB backend's `deduct_balance` reports
`InsufficientBalance`, the `has` field is 0 regardless of the stored
balance, and only `need` carries the requested amount. -/
theorem dynamo_insufficient_has_zero (table : DynamoTable)
    (address : String) (amount : ℚ) (timestamp : ℕ) (has need : ℚ)
    (h : (dynamo_deduct_balance table address amount timestamp).2 =
      .error (.insufficientBalance has need)) :
    has = 0 ∧ need = amount := by
  unfold dynamo_deduct_balance at h
  dsimp only at h
  rcases htab : table (lowercase address) with _ | item
  · rw [htab] at h
    dsimp only at h
    simp only [Except.error.injEq, DatabaseError.insufficientBalance.injEq] at h
    exact ⟨h.1.symm, h.2.symm⟩
  · rw [htab] at h
    dsimp only at h
    by_cases hle : amount ≤ item.balance
    · rw [if_pos hle] at h
      simp at h
    · rw [if_neg hle] at h
      simp only [Except.error.injEq, DatabaseError.insufficientBalance.injEq] at h
      exact ⟨h.1.symm, h.2.symm⟩

/-- Witness for C10: an account holding 5 that is debited 7 yields
`InsufficientBalance` whose `has` field is 0, not the stored 5. -/
theorem dynamo_insufficient_has_zero_witness :
    (0 : ℚ) = 0 ∧ (7 : ℚ) = 7 :=
  dynamo_insufficient_has_zero (fun _ => some ⟨5, 0⟩) "a" 7 3 0 7 rfl

/-- C5: `verify_signature` rejects with a timestamp-drift error exactly
when `|now − timestamp|` exceeds `TIMESTAMP_WINDOW_SECS = 60`; with an
otherwise-valid signature a drift of exactly 60 seconds is accepted and
a drift of 61 seconds is rejected. -/
theorem timestamp_drift_boundary :
    (∀ (S : SigScheme) (now : ℕ) (address signature : String)
        (timestamp : ℕ) (body : String),
      (∃ sec, verify_signature S now address signature timestamp body =
        .error (.timestampDrift sec)) ↔
        TIMESTAMP_WINDOW_SECS < Nat.dist now timestamp) ∧
    verify_signature trivialScheme 160 "0xaaaa" "0xsig" 100 "body" =
      .ok () ∧
    verify_signature trivialScheme 161 "0xaaaa" "0xsig" 100 "body" =
      .error (.timestampDrift 61) := by
  refine ⟨fun S now address signature timestamp body => ?_, rfl, rfl⟩
  unfold verify_signature
  by_cases hd : TIMESTAMP_WINDOW_SECS < Nat.dist now timestamp
  · rw [if_pos hd]
    exact ⟨fun _ => hd, fun _ => ⟨Nat.dist now timestamp, rfl⟩⟩
  · rw [if_neg hd, iff_false_intro hd, iff_false]
    dsimp only
    rintro ⟨sec, h⟩
    rcases hps : S.parseSignature signature with _ | sig
    · simp only [hps] at h
      simp at h
    simp only [hps] at h
    rcases hr : S.recoverPrehash sig (S.keccak256 (address
        ++ toString timestamp ++ S.hexEncode (S.keccak256 body)))
      with _ | recovered
    · simp only [hr] at h
      simp at h
    simp only [hr] at h
    rcases hpa : S.parseAddress address with _ | claimed
    · simp only [hpa] at h
      simp at h
    simp only [hpa] at h
    by_cases he : S.addrEq recovered claimed = true
    · rw [if_pos he] at h
      simp at h
    · rw [if_neg he] at h
      simp at h

/-- C7: the auth headers built by the client transport are accepted by
the server's `verify_signature` for the same body exactly when the
claimed address parses back to the signer's public address (true by
construction) and the timestamp drift is at most 60 seconds — under the
ECDSA recovery law and the render/parse round-trip laws of the scheme. -/
theorem transport_verifier_symmetry (S : SigScheme) (key : S.Key)
    (now timestamp : ℕ) (body : String)
    (hrecover : ∀ k h, S.recoverPrehash (S.signHash k h) h =
      some (S.pubkey k))
    (hsig : ∀ sg, S.parseSignature (S.sigToString sg) = some sg)
    (haddr : ∀ a, S.parseAddress (S.addrToString a) = some a)
    (heq : ∀ a b, S.addrEq a b = true ↔ a = b) :
    verify_signature S now (transport_headers S key timestamp body).1
        (transport_headers S key timestamp body).2.1
        (transport_headers S key timestamp body).2.2 body = .ok () ↔
      (S.parseAddress (transport_headers S key timestamp body).1 =
          some (S.pubkey key) ∧
        Nat.dist now timestamp ≤ TIMESTAMP_WINDOW_SECS) := by
  unfold transport_headers verify_signature
  dsimp only
  by_cases hd : TIMESTAMP_WINDOW_SECS < Nat.dist now timestamp
  · rw [if_pos hd]
    simp [Nat.not_le.mpr hd]
  · rw [if_neg hd]
    rw [hsig]
    dsimp only
    rw [hrecover]
    dsimp only
    rw [haddr]
    dsimp only
    rw [if_pos ((heq _ _).mpr rfl)]
    simp [haddr, Nat.not_lt.mp hd]

/-- Witness for C7: the degenerate scheme satisfies the scheme laws, and
for it a transport-signed request with 20 seconds of drift is accepted. -/
theorem transport_verifier_symmetry_witness :
    verify_signature trivialScheme 100
        (transport_headers trivialScheme () 80 "b").1
        (transport_headers trivialScheme () 80 "b").2.1
        (transport_headers trivialScheme () 80 "b").2.2 "b" = .ok () ↔
      (trivialScheme.parseAddress
          (transport_headers trivialScheme () 80 "b").1 =
          some (trivialScheme.pubkey ()) ∧
        Nat.dist 100 80 ≤ TIMESTAMP_WINDOW_SECS) :=
  transport_verifier_symmetry trivialScheme () 100 80 "b"
    (fun _ _ => rfl) (fun _ => rfl) (fun _ => rfl)
    (fun _ _ => ⟨fun _ => rfl, fun _ => rfl⟩)

/-- Counterexample to C8 as stated: a verified payment envelope whose
`payload.authorization` carries a `from` address but no `value` is not
rejected with 400 — the flow proceeds (value treated as "0") and
forwards the body upstream. -/
theorem deposit_missing_value_not_rejected :
    (handle_payment_with_paygate
      ⟨.ok (), .ok (),
       .ok (.obj [("payload", .obj [("authorization",
         .obj [("from", .str "0xabc")])])]),
       .ok ()⟩
      emptyStore 1 0 "body").1 = .upstreamResponse "body" ∧
    (handle_payment_with_paygate
      ⟨.ok (), .ok (),
       .ok (.obj [("payload", .obj [("authorization",
         .obj [("from", .str "0xabc")])])]),
       .ok ()⟩
      emptyStore 1 0 "body").1 ≠ .badRequest := by
  constructor
  · rfl
  · intro h
    exact RelayResponse.noConfusion h

/-- C8 amended: after the facilitator has verified the payment, the
pipeline returns 400 when the verified payload fails to serialize, and
(given it serializes and settlement succeeds) exactly when the payer
address extracted from `payload.authorization.from` is missing or
empty; a missing `value` is instead treated as 0 and the flow
continues. -/
theorem deposit_from_extraction_400 (pj : Json)
    (settleRes : Except RelayResponse Unit) (store : Store) (price : ℚ)
    (now : ℕ) (body : String) :
    ((handle_payment_with_paygate ⟨.ok (), .ok (), .ok pj, .ok ()⟩
        store price now body).1 = .badRequest ↔
      extract_from_address pj = "") ∧
    (handle_payment_with_paygate ⟨.ok (), .ok (), .error (), settleRes⟩
        store price now body).1 = .badRequest := by
  constructor
  · unfold handle_payment_with_paygate
    dsimp only
    by_cases hf : extract_from_address pj = ""
    · rw [if_pos hf]
      simp [hf]
    · rw [if_neg hf]
      simp [hf]
  · rfl

theorem deduct_balance_error_fst (store : Store) (address : String)
    (price : ℚ) (timestamp : ℕ) (err : DatabaseError)
    (h : (deduct_balance store address price timestamp).2 = .error err) :
    (deduct_balance store address price timestamp).1 = store := by
  rw [deduct_balance_eq] at h ⊢
  by_cases hlt : userBalance store address < price
  · rw [if_pos hlt]
  · rw [if_neg hlt] at h
    simp at h

/-- C6: with no `X-Payment` header, the pipeline returns 402 with the
payment-requirements body when any auth header is missing or
unparsable; 401 "replay detected" when the signature is already in the
replay cache; 401 when signature verification fails; and 402 (without
forwarding the body upstream) on any `deduct_balance` error. -/
theorem auth_flow_error_mapping (env : DepositEnv)
    (verify : String → String → ℕ → String → Except String Unit)
    (h : Headers) (body : String) (now : ℕ) (cache : SignatureCache)
    (store : Store) (price : ℚ)
    (hnp : h.xPayment = none) :
    (extract_auth_headers h = none →
      relay env verify h body now cache store price =
        (.paymentRequired, cache, store)) ∧
    (∀ address signature timestamp,
      extract_auth_headers h = some (address, signature, timestamp) →
      ((SignatureCache.is_replay cache now signature).2 = true →
        relay env verify h body now cache store price =
          (.replayDetected,
           (SignatureCache.is_replay cache now signature).1, store)) ∧
      ((SignatureCache.is_replay cache now signature).2 = false →
        (∀ e, verify address signature timestamp body = .error e →
          relay env verify h body now cache store price =
            (.authFailed e,
             (SignatureCache.is_replay cache now signature).1, store)) ∧
        (verify address signature timestamp body = .ok () →
          ∀ err, (deduct_balance store address price timestamp).2 =
            .error err →
          relay env verify h body now cache store price =
            (.paymentRequired,
             (SignatureCache.is_replay cache now signature).1, store) ∧
          (relay env verify h body now cache store price).1 ≠
            .upstreamResponse body))) := by
  have hpn : has_payment_header h = false := by
    simp [has_payment_header, hnp]
  constructor
  · intro hext
    unfold relay
    simp only [hpn, Bool.false_eq_true, if_false, hext]
  · intro address signature timestamp hext
    unfold relay
    simp only [hpn, Bool.false_eq_true, if_false, hext]
    constructor
    · intro hrep
      rw [if_pos hrep]
    · intro hrep
      rw [if_neg (by rw [hrep]; exact Bool.false_ne_true)]
      constructor
      · intro e hv
        simp only [hv]
      · intro hv err hderr
        have hfst := deduct_balance_error_fst store address price
          timestamp err hderr
        rcases hdd : deduct_balance store address price timestamp
          with ⟨s', r⟩
        rw [hdd] at hderr hfst
        dsimp only at hderr hfst
        subst hderr hfst
        refine ⟨?_, ?_⟩ <;> simp [hv, hdd]

/-- Witness for C6: concrete requests exercising all four outcomes:
missing auth headers, a replayed signature, a verifier failure, and an
insufficient-balance debit on an empty ledger. -/
theorem auth_flow_error_mapping_witness :
    (relay ⟨.ok (), .ok (), .error (), .ok ()⟩
        (fun _ _ _ _ => .ok ()) ⟨none, none, none, none⟩ "b" 100 [] emptyStore 1 =
      (.paymentRequired, [], emptyStore)) ∧
    (relay ⟨.ok (), .ok (), .error (), .ok ()⟩
        (fun _ _ _ _ => .ok ())
        ⟨none, some "0xa", some "0xsig", some "100"⟩ "b" 100
        [("0xsig", 50)] emptyStore 1 =
      (.replayDetected, [("0xsig", 50)], emptyStore)) ∧
    (relay ⟨.ok (), .ok (), .error (), .ok ()⟩
        (fun _ _ _ _ => .error "bad signature")
        ⟨none, some "0xa", some "0xsig", some "100"⟩ "b" 100
        [] emptyStore 1 =
      (.authFailed "bad signature", [], emptyStore)) ∧
    (relay ⟨.ok (), .ok (), .error (), .ok ()⟩
        (fun _ _ _ _ => .ok ())
        ⟨none, some "0xa", some "0xsig", some "100"⟩ "b" 100
        [] emptyStore 1 =
      (.paymentRequired, [], emptyStore)) := by
  refine ⟨?_, ?_, ?_, ?_⟩
  · exact (auth_flow_error_mapping ⟨.ok (), .ok (), .error (), .ok ()⟩
      (fun _ _ _ _ => .ok ()) ⟨none, none, none, none⟩ "b" 100 []
      emptyStore 1 rfl).1 rfl
  · exact ((auth_flow_error_mapping ⟨.ok (), .ok (), .error (), .ok ()⟩
      (fun _ _ _ _ => .ok ()) ⟨none, some "0xa", some "0xsig", some "100"⟩
      "b" 100 [("0xsig", 50)] emptyStore 1 rfl).2 "0xa" "0xsig" 100
      rfl).1 rfl
  · exact (((auth_flow_error_mapping ⟨.ok (), .ok (), .error (), .ok ()⟩
      (fun _ _ _ _ => .error "bad signature")
      ⟨none, some "0xa", some "0xsig", some "100"⟩ "b" 100 []
      emptyStore 1 rfl).2 "0xa" "0xsig" 100 rfl).2 rfl).1
      "bad signature" rfl
  · exact ((((auth_flow_error_mapping ⟨.ok (), .ok (), .error (), .ok ()⟩
      (fun _ _ _ _ => .ok ())
      ⟨none, some "0xa", some "0xsig", some "100"⟩ "b" 100 []
      emptyStore 1 rfl).2 "0xa" "0xsig" 100 rfl).2 rfl).2 rfl
      (.insufficientBalance 0 1) rfl).1

/-- C3: in the authenticated flow the replay cache is probed before the
signature payload is verified — a cache hit yields the replay rejection
for every possible verifier — and the signature is remembered (inserted
into the cache) exactly when signature verification and the ledger
debit both succeed; when either fails the cache is left as the probe's
cleanup produced it, without the request's signature. -/
theorem replay_probe_and_remember (env : DepositEnv) (h : Headers)
    (body : String) (now : ℕ) (cache : SignatureCache) (store : Store)
    (price : ℚ) (address signature : String) (timestamp : ℕ)
    (hnp : h.xPayment = none)
    (hext : extract_auth_headers h = some (address, signature, timestamp)) :
    ((SignatureCache.is_replay cache now signature).2 = true →
      ∀ verify, relay env verify h body now cache store price =
        (.replayDetected,
         (SignatureCache.is_replay cache now signature).1, store)) ∧
    ((SignatureCache.is_replay cache now signature).2 = false →
      ∀ verify,
      ((relay env verify h body now cache store price).2.1.any
          (fun e => e.1 == signature) = true ↔
        (verify address signature timestamp body = .ok () ∧
          (deduct_balance store address price timestamp).2.isOk = true)) ∧
      ((verify address signature timestamp body ≠ .ok () ∨
          (deduct_balance store address price timestamp).2.isOk = false) →
        (relay env verify h body now cache store price).2.1 =
          (SignatureCache.is_replay cache now signature).1)) := by
  have hpn : has_payment_header h = false := by
    simp [has_payment_header, hnp]
  constructor
  · intro hrep verify
    unfold relay
    simp only [hpn, Bool.false_eq_true, if_false, hext]
    rw [if_pos hrep]
  · intro hrep verify
    unfold relay
    simp only [hpn, Bool.false_eq_true, if_false, hext]
    rw [if_neg (by rw [hrep]; exact Bool.false_ne_true)]
    have hrep' : (List.any (SignatureCache.is_replay cache now signature).1
        fun e => e.1 == signature) = false := hrep
    rcases hv : verify address signature timestamp body with e | u
    · refine ⟨?_, fun _ => rfl⟩
      rw [hrep']
      simp
    · rcases hdd : deduct_balance store address price timestamp with ⟨s', r⟩
      rcases r with err | rem
      · refine ⟨?_, fun _ => rfl⟩
        rw [hrep']
        simp [Except.isOk, Except.toBool]
      · refine ⟨?_, ?_⟩
        · constructor
          · intro _
            exact ⟨rfl, rfl⟩
          · intro _
            simp [SignatureCache.add]
        · rintro (hcv | hcd)
          · exact absurd rfl hcv
          · exact absurd hcd (by simp [Except.isOk, Except.toBool])

/-- Witness for C3: a cache hit short-circuits to the replay rejection,
and on an empty cache with an empty ledger the failed debit leaves the
signature out of the cache. -/
theorem replay_probe_and_remember_witness :
    (relay ⟨.ok (), .ok (), .error (), .ok ()⟩ (fun _ _ _ _ => .ok ())
        ⟨none, some "0xa", some "0xsig", some "100"⟩ "b" 100
        [("0xsig", 50)] emptyStore 1 =
      (.replayDetected, [("0xsig", 50)], emptyStore)) ∧
    ((relay ⟨.ok (), .ok (), .error (), .ok ()⟩ (fun _ _ _ _ => .ok ())
        ⟨none, some "0xa", some "0xsig", some "100"⟩ "b" 100 []
        emptyStore 1).2.1.any (fun e => e.1 == "0xsig") = true ↔
      ((fun (_ _ : String) (_ : ℕ) (_ : String) =>
          (Except.ok () : Except String Unit)) "0xa" "0xsig" 100 "b" =
            .ok () ∧
        (deduct_balance emptyStore "0xa" 1 100).2.isOk = true)) := by
  constructor
  · exact (replay_probe_and_remember ⟨.ok (), .ok (), .error (), .ok ()⟩
      ⟨none, some "0xa", some "0xsig", some "100"⟩ "b" 100
      [("0xsig", 50)] emptyStore 1 "0xa" "0xsig" 100 rfl rfl).1 rfl
      (fun _ _ _ _ => .ok ())
  · exact ((replay_probe_and_remember ⟨.ok (), .ok (), .error (), .ok ()⟩
      ⟨none, some "0xa", some "0xsig", some "100"⟩ "b" 100 []
      emptyStore 1 "0xa" "0xsig" 100 rfl rfl).2 rfl
      (fun _ _ _ _ => .ok ())).1

theorem userBalance_add_balance (store : Store) (address : String)
    (a : ℚ) :
    userBalance (add_balance store address a).1 address =
      userBalance store address + a := by
  rw [add_balance_eq]
  exact userBalance_update_self _ _ _

theorem runLedgerOps_balance (address : String) :
    ∀ (ops : List LedgerOp) (store : Store),
      userBalance (runLedgerOps store address ops) address =
        userBalance store address + sumCredits ops -
          sumSuccessfulDebits store address ops := by
  intro ops
  induction ops with
  | nil =>
    intro store
    simp [runLedgerOps, sumCredits, sumSuccessfulDebits]
  | cons op rest ih =>
    intro store
    cases op with
    | credit a =>
      show userBalance (runLedgerOps (add_balance store address a).1
        address rest) address = _
      rw [ih, userBalance_add_balance]
      show _ = userBalance store address + (a + sumCredits rest) -
        sumSuccessfulDebits (add_balance store address a).1 address rest
      ring
    | debit a t =>
      by_cases hlt : userBalance store address < a
      · have hdd : deduct_balance store address a t =
            (store, .error (.insufficientBalance
              (userBalance store address) a)) := by
          rw [deduct_balance_eq, if_pos hlt]
        show userBalance (runLedgerOps (deduct_balance store address a t).1
          address rest) address = _
        rw [hdd, ih]
        show _ = userBalance store address + sumCredits rest -
          sumSuccessfulDebits store address (LedgerOp.debit a t :: rest)
        rw [show sumSuccessfulDebits store address
            (LedgerOp.debit a t :: rest) =
          sumSuccessfulDebits store address rest from by
            rw [sumSuccessfulDebits, hdd]]
      · have hdd : deduct_balance store address a t =
            (update_user store (lowercase address)
              ⟨userBalance store address - a, t⟩,
             .ok (userBalance store address - a)) := by
          rw [deduct_balance_eq, if_neg hlt]
        show userBalance (runLedgerOps (deduct_balance store address a t).1
          address rest) address = _
        rw [hdd, ih, userBalance_update_self]
        show _ = userBalance store address + sumCredits rest -
          sumSuccessfulDebits store address (LedgerOp.debit a t :: rest)
        rw [show sumSuccessfulDebits store address
            (LedgerOp.debit a t :: rest) =
          a + sumSuccessfulDebits (update_user store (lowercase address)
            ⟨userBalance store address - a, t⟩) address rest from by
            rw [sumSuccessfulDebits, hdd]]
        ring

theorem runLedgerOps_take_nonneg (address : String) :
    ∀ (ops : List LedgerOp) (store : Store),
      0 ≤ userBalance store address →
      (∀ op ∈ ops, 0 ≤ op.amount) →
      ∀ n, 0 ≤ userBalance (runLedgerOps store address (ops.take n))
        address := by
  intro ops
  induction ops with
  | nil =>
    intro store h0 _ n
    simpa [runLedgerOps] using h0
  | cons op rest ih =>
    intro store h0 hamt n
    cases n with
    | zero => simpa [runLedgerOps] using h0
    | succ m =>
      rw [List.take_succ_cons]
      show 0 ≤ userBalance (runLedgerOps (applyLedgerOp store address op)
        address (rest.take m)) address
      refine ih (applyLedgerOp store address op) ?_
        (fun o ho => hamt o (List.mem_cons_of_mem _ ho)) m
      have hop0 : 0 ≤ op.amount := hamt op (List.mem_cons_self _ _)
      cases op with
      | credit a =>
        show 0 ≤ userBalance (add_balance store address a).1 address
        rw [userBalance_add_balance]
        have : (0 : ℚ) ≤ a := hop0
        linarith
      | debit a t =>
        by_cases hlt : userBalance store address < a
        · show 0 ≤ userBalance (deduct_balance store address a t).1 address
          rw [deduct_balance_eq, if_pos hlt]
          exact h0
        · show 0 ≤ userBalance (deduct_balance store address a t).1 address
          rw [deduct_balance_eq, if_neg hlt]
          show 0 ≤ userBalance (update_user store (lowercase address)
            ⟨userBalance store address - a, t⟩) address
          rw [userBalance_update_self]
          have := not_lt.mp hlt
          show (0 : ℚ) ≤ userBalance store address - a
          linarith

/-- The sequence-accounting invariant for the exact-arithmetic ledger
the spec mandates (integer micro-units, no floating point): for every
sequence of credits and debits with non-negative amounts from a fresh
address, the final balance equals the sum of all credited amounts minus
the amounts of the debits that succeeded, and no intermediate balance
is ever below zero.  The source's `f64` ledger violates this invariant
(see `ledger_accounting_fails_in_f64`). -/
theorem ledger_balance_accounting (address : String)
    (ops : List LedgerOp) (hamounts : ∀ op ∈ ops, 0 ≤ op.amount) :
    userBalance (runLedgerOps emptyStore address ops) address =
      sumCredits ops - sumSuccessfulDebits emptyStore address ops ∧
    ∀ n, 0 ≤ userBalance (runLedgerOps emptyStore address (ops.take n))
      address := by
  constructor
  · have h := runLedgerOps_balance address ops emptyStore
    rw [h]
    show (0 : ℚ) + sumCredits ops - _ = _
    ring
  · exact runLedgerOps_take_nonneg address ops emptyStore (le_refl 0)
      hamounts

/-- `ledger_balance_accounting` on a concrete history: credit 2, then a
successful debit of 1 and a failed debit of 7. -/
theorem ledger_balance_accounting_witness :
    (userBalance (runLedgerOps emptyStore "a"
        [.credit 2, .debit 1 5, .debit 7 6]) "a" =
      sumCredits [.credit 2, .debit 1 5, .debit 7 6] -
        sumSuccessfulDebits emptyStore "a"
          [.credit 2, .debit 1 5, .debit 7 6]) ∧
    ∀ n, 0 ≤ userBalance (runLedgerOps emptyStore "a"
      (List.take n [.credit 2, .debit 1 5, .debit 7 6])) "a" :=
  ledger_balance_accounting "a" [.credit 2, .debit 1 5, .debit 7 6] (by
    intro op hop
    simp only [List.mem_cons, List.not_mem_nil, or_false] at hop
    rcases hop with rfl | rfl | rfl <;> norm_num [LedgerOp.amount])

theorem log2_pow53 : Nat.log2 (2 ^ 53) = 53 := by
  rw [Nat.log2_eq_log_two]
  exact Nat.log_pow (by norm_num) 53

theorem log2_pow53_add_one : Nat.log2 (2 ^ 53 + 1) = 53 := by
  rw [Nat.log2_eq_log_two]
  apply Nat.log_eq_of_pow_le_of_lt_pow <;> norm_num

theorem log2_one : Nat.log2 1 = 0 := by
  rw [Nat.log2_eq_log_two]
  exact Nat.log_one_right 2

theorem floorLog2_pow53 : floorLog2 (2 ^ 53) 1 = 53 := by
  unfold floorLog2
  rw [log2_pow53, log2_one]
  norm_num [show (53 : ℤ).toNat = 53 from rfl]

theorem floorLog2_pow53_add_one : floorLog2 (2 ^ 53 + 1) 1 = 53 := by
  unfold floorLog2
  rw [log2_pow53_add_one, log2_one]
  norm_num [show (53 : ℤ).toNat = 53 from rfl]

theorem roundF64_of_floor53 (m : ℕ) (hm0 : (m : ℚ) ≠ 0)
    (hlog : floorLog2 m 1 = 53) :
    roundF64 (m : ℚ) = (rndInt m 2 : ℚ) * 2 := by
  unfold roundF64
  rw [if_neg hm0]
  dsimp only
  rw [Rat.num_natCast, Rat.den_natCast, Int.natAbs_ofNat, hlog]
  norm_num

theorem roundF64_pow53 : roundF64 ((2 : ℚ) ^ 53) = 2 ^ 53 := by
  have hcast : ((2 : ℚ) ^ 53) = (((2 ^ 53 : ℕ) : ℚ)) := by
    push_cast
    ring
  rw [hcast, roundF64_of_floor53 (2 ^ 53) (by positivity) floorLog2_pow53]
  rw [show rndInt (2 ^ 53) 2 = 2 ^ 52 from by unfold rndInt; norm_num]
  push_cast
  ring

theorem roundF64_pow53_add_one : roundF64 ((2 : ℚ) ^ 53 + 1) = 2 ^ 53 := by
  have hcast : ((2 : ℚ) ^ 53 + 1) = (((2 ^ 53 + 1 : ℕ) : ℚ)) := by
    push_cast
    ring
  rw [hcast, roundF64_of_floor53 (2 ^ 53 + 1) (by positivity)
    floorLog2_pow53_add_one]
  rw [show rndInt (2 ^ 53 + 1) 2 = 2 ^ 52 from by unfold rndInt; norm_num]
  push_cast
  ring

theorem add_balance_f64_eq (store : Store) (address : String)
    (amount : ℚ) :
    add_balance_f64 store address amount =
      (update_user store (lowercase address)
        ⟨f64_add (userBalance store address) amount,
         ((get_user store address).getD (UserData.new 0 0)).latest_timestamp⟩,
       f64_add (userBalance store address) amount) := by
  unfold add_balance_f64 userBalance
  dsimp only
  rw [get_user_lowercase]

theorem userBalance_add_balance_f64 (store : Store) (address : String)
    (a : ℚ) :
    userBalance (add_balance_f64 store address a).1 address =
      f64_add (userBalance store address) a := by
  rw [add_balance_f64_eq]
  exact userBalance_update_self _ _ _

/-- C2 fails on the code as written: the source stores balances as
`f64`, whose round-to-nearest-even addition is lossy.  On the concrete
history "credit 2^53 USDC, then credit 1 USDC" from a fresh address,
both credits succeed, yet the stored balance is 2^53 — the second
credit is absorbed by rounding (2^53 + 1 rounds to 2^53 in binary64) —
while the claimed accounting identity demands Σ credits − Σ successful
debits = 2^53 + 1.  (The exact-arithmetic ledger the spec mandates does
satisfy the claim: `ledger_balance_accounting`.) -/
theorem ledger_accounting_fails_in_f64 :
    sumCredits [LedgerOp.credit (2 ^ 53), LedgerOp.credit 1] -
      sumSuccessfulDebitsF64 emptyStore "a"
        [LedgerOp.credit (2 ^ 53), LedgerOp.credit 1] = 2 ^ 53 + 1 ∧
    userBalance (runLedgerOpsF64 emptyStore "a"
      [LedgerOp.credit (2 ^ 53), LedgerOp.credit 1]) "a" = 2 ^ 53 ∧
    userBalance (runLedgerOpsF64 emptyStore "a"
      [LedgerOp.credit (2 ^ 53), LedgerOp.credit 1]) "a" ≠
      sumCredits [LedgerOp.credit (2 ^ 53), LedgerOp.credit 1] -
        sumSuccessfulDebitsF64 emptyStore "a"
          [LedgerOp.credit (2 ^ 53), LedgerOp.credit 1] := by
  have hsum : sumCredits [LedgerOp.credit (2 ^ 53), LedgerOp.credit 1]
      = 2 ^ 53 + 1 := by
    norm_num [sumCredits]
  have hdeb : sumSuccessfulDebitsF64 emptyStore "a"
      [LedgerOp.credit (2 ^ 53), LedgerOp.credit 1] = 0 := rfl
  have hrun : userBalance (runLedgerOpsF64 emptyStore "a"
      [LedgerOp.credit (2 ^ 53), LedgerOp.credit 1]) "a" = 2 ^ 53 := by
    show userBalance (add_balance_f64
      (add_balance_f64 emptyStore "a" (2 ^ 53)).1 "a" 1).1 "a" = 2 ^ 53
    rw [userBalance_add_balance_f64, userBalance_add_balance_f64]
    rw [show userBalance emptyStore "a" = 0 from rfl]
    rw [show f64_add 0 ((2 : ℚ) ^ 53) = 2 ^ 53 from by
      unfold f64_add
      rw [zero_add]
      exact roundF64_pow53]
    show roundF64 ((2 : ℚ) ^ 53 + 1) = 2 ^ 53
    exact roundF64_pow53_add_one
  refine ⟨by rw [hsum, hdeb]; ring, hrun, ?_⟩
  rw [hrun, hsum, hdeb]
  norm_num

theorem runCacheOps_fresh (s : String) (t tq : ℕ)
    (htq : tq - t < SignatureCache.ttl) :
    ∀ (ops : List CacheOp) (c : SignatureCache),
      (∃ u, (s, u) ∈ c ∧ t ≤ u ∧ u ≤ tq) →
      (∀ op ∈ ops, t ≤ op.time ∧ op.time ≤ tq) →
      ∃ u, (s, u) ∈ runCacheOps c ops ∧ t ≤ u ∧ u ≤ tq := by
  intro ops
  induction ops with
  | nil =>
    intro c hc _
    exact hc
  | cons op rest ih =>
    intro c hc hops
    have hop := hops op (List.mem_cons_self _ _)
    have hrest := fun o ho => hops o (List.mem_cons_of_mem _ ho)
    obtain ⟨u, hu, htu, hut⟩ := hc
    cases op with
    | addSig s2 t2 =>
      show ∃ u, (s, u) ∈ runCacheOps (SignatureCache.add c t2 s2) rest ∧ _
      refine ih _ ?_ hrest
      by_cases hss : s2 = s
      · subst hss
        exact ⟨t2, List.mem_cons_self _ _, hop.1, hop.2⟩
      · refine ⟨u, ?_, htu, hut⟩
        refine List.mem_cons_of_mem _ (List.mem_filter.mpr ⟨hu, ?_⟩)
        simp only [decide_eq_true_eq]
        exact fun hEq => hss hEq.symm
    | probe s2 t2 =>
      show ∃ u, (s, u) ∈
        runCacheOps (SignatureCache.is_replay c t2 s2).1 rest ∧ _
      refine ih _ ?_ hrest
      refine ⟨u, List.mem_filter.mpr ⟨hu, ?_⟩, htu, hut⟩
      simp only [decide_eq_true_eq]
      have h1 := hop.1
      have h2 := hop.2
      simp only [CacheOp.time] at h1 h2
      show t2 - u < SignatureCache.ttl
      have hT : SignatureCache.ttl = 120 := rfl
      omega

theorem runCacheOps_no_refresh (s : String) (t : ℕ) :
    ∀ (ops : List CacheOp) (c : SignatureCache),
      (∀ u2, CacheOp.addSig s u2 ∉ ops) →
      (∀ u, (s, u) ∈ c → u = t) →
      ∀ u, (s, u) ∈ runCacheOps c ops → u = t := by
  intro ops
  induction ops with
  | nil =>
    intro c _ hc u hu
    exact hc u hu
  | cons op rest ih =>
    intro c hnoadd hc u hu
    cases op with
    | addSig s2 t2 =>
      have hss : s2 ≠ s := by
        intro hEq
        subst hEq
        exact hnoadd t2 (List.mem_cons_self _ _)
      refine ih _ (fun u2 hmem => hnoadd u2 (List.mem_cons_of_mem _ hmem))
        ?_ u hu
      intro v hv
      rcases List.mem_cons.mp hv with hhead | htail
      · exact absurd (congrArg Prod.fst hhead).symm hss
      · exact hc v (List.mem_filter.mp htail).1
    | probe s2 t2 =>
      refine ih _ (fun u2 hmem => hnoadd u2 (List.mem_cons_of_mem _ hmem))
        ?_ u hu
      intro v hv
      exact hc v (List.mem_filter.mp hv).1

/-- C4: after `add(s)` at instant `t`, any `is_replay(s)` probe at
instant `tq` with less than the 120 s TTL elapsed returns true, however
many cache operations happen in between; once at least the TTL has
elapsed (and `s` was not re-added meanwhile) a probe returns false, the
eviction being performed by the probing call itself; and `is_replay`
never inserts: its resulting cache only keeps existing entries. -/
theorem signature_cache_ttl_behavior :
    (∀ (c : SignatureCache) (s : String) (t : ℕ) (ops : List CacheOp)
        (tq : ℕ),
      (∀ op ∈ ops, t ≤ op.time ∧ op.time ≤ tq) →
      t ≤ tq → tq - t < SignatureCache.ttl →
      (SignatureCache.is_replay
        (runCacheOps (SignatureCache.add c t s) ops) tq s).2 = true) ∧
    (∀ (c : SignatureCache) (s : String) (t : ℕ) (ops : List CacheOp)
        (tq : ℕ),
      (∀ u2, CacheOp.addSig s u2 ∉ ops) →
      t + SignatureCache.ttl ≤ tq →
      (SignatureCache.is_replay
        (runCacheOps (SignatureCache.add c t s) ops) tq s).2 = false) ∧
    (∀ (c : SignatureCache) (now : ℕ) (s : String) (x : String × ℕ),
      x ∈ (SignatureCache.is_replay c now s).1 → x ∈ c) := by
  refine ⟨?_, ?_, ?_⟩
  · intro c s t ops tq hops htt htq
    obtain ⟨u, hu, htu, hut⟩ := runCacheOps_fresh s t tq htq ops
      (SignatureCache.add c t s)
      ⟨t, List.mem_cons_self _ _, le_refl t, htt⟩ hops
    show (SignatureCache.cleanup
      (runCacheOps (SignatureCache.add c t s) ops) tq).any
        (fun e => e.1 == s) = true
    refine List.any_eq_true.mpr ⟨(s, u), List.mem_filter.mpr ⟨hu, ?_⟩, ?_⟩
    · simp only [decide_eq_true_eq]
      show tq - u < SignatureCache.ttl
      have hT : SignatureCache.ttl = 120 := rfl
      omega
    · simp
  · intro c s t ops tq hnoadd htq
    have hinv : ∀ u, (s, u) ∈
        runCacheOps (SignatureCache.add c t s) ops → u = t := by
      refine runCacheOps_no_refresh s t ops _ hnoadd ?_
      intro v hv
      rcases List.mem_cons.mp hv with hhead | htail
      · exact congrArg Prod.snd hhead
      · exact absurd rfl (by
          have := (List.mem_filter.mp htail).2
          simp only [decide_eq_true_eq] at this
          exact this)
    show (SignatureCache.cleanup
      (runCacheOps (SignatureCache.add c t s) ops) tq).any
        (fun e => e.1 == s) = false
    refine List.any_eq_false.mpr ?_
    rintro ⟨e1, e2⟩ he
    intro hbeq
    have he1 : e1 = s := by simpa using hbeq
    subst he1
    have hmem := (List.mem_filter.mp he).1
    have hfresh := (List.mem_filter.mp he).2
    simp only [decide_eq_true_eq] at hfresh
    have he2 := hinv e2 hmem
    subst he2
    have hT : SignatureCache.ttl = 120 := rfl
    omega
  · intro c now s x hx
    exact (List.mem_filter.mp hx).1

/-- Witness for C4: a signature remembered at instant 0 is still a
replay at instant 50 (after an unrelated probe at instant 10), is no
longer one at instant 120, and a probe keeps only pre-existing
entries. -/
theorem signature_cache_ttl_behavior_witness :
    (SignatureCache.is_replay
      (runCacheOps (SignatureCache.add [] 0 "x") [CacheOp.probe "y" 10])
      50 "x").2 = true ∧
    (SignatureCache.is_replay
      (runCacheOps (SignatureCache.add [] 0 "x") [CacheOp.probe "y" 10])
      120 "x").2 = false ∧
    ("y", 3) ∈ [("y", 3)] := by
  refine ⟨?_, ?_, ?_⟩
  · refine signature_cache_ttl_behavior.1 [] "x" 0 [CacheOp.probe "y" 10]
      50 ?_ (by norm_num) (by norm_num [SignatureCache.ttl])
    intro op hop
    simp only [List.mem_singleton] at hop
    subst hop
    exact ⟨by norm_num [CacheOp.time], by norm_num [CacheOp.time]⟩
  · refine signature_cache_ttl_behavior.2.1 [] "x" 0 [CacheOp.probe "y" 10]
      120 ?_ (by norm_num [SignatureCache.ttl])
    intro u2
    simp
  · exact signature_cache_ttl_behavior.2.2 [("y", 3)] 5 "x" ("y", 3)
      (by decide)

end Gateway
